import Mathlib

/-!
Verification of the go-webserver repository: a shallow embedding of the
middleware adapter, access-logging response recorder, trace-header
normalizer, graceful-shutdown coordinator, JSON handlers and the pod-label
file parser, together with theorems settling the specification claims.
-/

namespace GoWebServer

/-! ## Middleware adapter (adapters.go: adapt) -/

/-- Embeds `adapt(h http.Handler, middleware ...adapter) http.Handler`:
the Go loop `for _, m := range middleware { h = m(h) }; return h`,
iterating over the middleware list in declaration order. -/
def adapt {α : Type} (h : α) : List (α → α) → α
  | [] => h
  | m :: rest => adapt (m h) rest

/-- A handler instrumented for observing execution order: it receives the
trace of wrapper events recorded so far and extends it. -/
def Handler : Type := List Nat → List Nat

/-- A middleware wrapper with identity `i`: at call time it records its own
event `i` on the trace and only then calls the next handler inward. -/
def mkAdapter (i : Nat) : Handler → Handler :=
  fun h t => h (t ++ [i])

/-! ## Access-logging response recorder (adapters.go: statusWriter) -/

/-- Embeds the `statusWriter` struct: recorded status code and cumulative
byte length, as read by `logHTTPRequest` after the handler returns. -/
structure StatusWriter where
  status : Nat
  length : Nat
deriving DecidableEq, Repr

/-- One interaction of a handler with the response recorder.
`write n` carries the byte count the underlying `ResponseWriter.Write`
reported as successfully written for that call. -/
inductive WOp where
  | writeHeader (status : Nat)
  | write (reported : Nat)
deriving DecidableEq, Repr

/-- Embeds `statusWriter.WriteHeader`: `w.status = status` unconditionally,
then forwards to the wrapped writer. -/
def swWriteHeader (w : StatusWriter) (s : Nat) : StatusWriter :=
  { w with status := s }

/-- Embeds `statusWriter.Write`: default the status to 200 when still unset,
then add the underlying writer's reported count to the length. -/
def swWrite (w : StatusWriter) (n : Nat) : StatusWriter :=
  let w1 := if w.status = 0 then { w with status := 200 } else w
  { w1 with length := w1.length + n }

/-- Runs a sequence of handler interactions against the recorder. -/
def swRun (w : StatusWriter) : List WOp → StatusWriter
  | [] => w
  | .writeHeader s :: ops => swRun (swWriteHeader w s) ops
  | .write n :: ops => swRun (swWrite w n) ops

/-- The recorder as `logHTTPRequest` creates it: `statusWriter{ResponseWriter: w}`,
status and length zero. -/
def swInit : StatusWriter := ⟨0, 0⟩

/-- The status value `logHTTPRequest` logs for a request whose handler
performed the given interactions. -/
def loggedStatus (ops : List WOp) : Nat :=
  (swRun swInit ops).status

/-- The byte count `logHTTPRequest` logs for a request whose handler
performed the given interactions. -/
def loggedLength (ops : List WOp) : Nat :=
  (swRun swInit ops).length

/-- Follows the spec sentence: the first status code explicitly written
during the request, if any. Used to compare against what the code records. -/
def firstWrittenStatus : List WOp → Option Nat
  | [] => none
  | .writeHeader s :: _ => some s
  | .write _ :: ops => firstWrittenStatus ops

/-- The last status code explicitly written during the request, if any. -/
def lastWrittenStatus : List WOp → Option Nat
  | [] => none
  | .writeHeader s :: ops =>
    match lastWrittenStatus ops with
    | some s2 => some s2
    | none => some s
  | .write _ :: ops => lastWrittenStatus ops

/-- Whether the handler ever called WriteHeader explicitly. -/
def hasWriteHeader : List WOp → Bool
  | [] => false
  | .writeHeader _ :: _ => true
  | .write _ :: ops => hasWriteHeader ops

/-- Whether the handler performed at least one Write call. -/
def hasWrite : List WOp → Bool
  | [] => false
  | .writeHeader _ :: ops => hasWrite ops
  | .write _ :: _ => true

/-- Total bytes the underlying writer reported as successfully written
across all Write calls. -/
def sumReported : List WOp → Nat
  | [] => 0
  | .writeHeader _ :: ops => sumReported ops
  | .write n :: ops => n + sumReported ops

/-! ## Go strconv parsing (as used by IsDevelopment and fixTracingHeader) -/

/-- Go strconv digit decoding: decimal digits, then letters with value 10
upward (case-insensitive), as in the ParseUint loop. -/
def digitVal (c : Char) : Option Nat :=
  if ('0' ≤ c ∧ c ≤ '9') then some (c.toNat - '0'.toNat)
  else if ('a' ≤ c ∧ c ≤ 'z') then some (c.toNat - 'a'.toNat + 10)
  else if ('A' ≤ c ∧ c ≤ 'Z') then some (c.toNat - 'A'.toNat + 10)
  else none

/-- The accumulation loop of Go `strconv.ParseUint` with an explicit base:
fails on any rune that is not a digit of the base. -/
def parseUintLoop (base : Nat) (acc : Nat) : List Char → Option Nat
  | [] => some acc
  | c :: rest =>
    match digitVal c with
    | none => none
    | some d => if d < base then parseUintLoop base (acc * base + d) rest else none

/-- Embeds Go `strconv.ParseUint(s, base, 64)` for an explicit base (10 or 16):
empty input is an error, any non-digit is an error, and a value not fitting
in 64 bits is a range error. `none` stands for a non-nil error. -/
def parseUint (base : Nat) (s : List Char) : Option Nat :=
  if s = [] then none
  else
    match parseUintLoop base 0 s with
    | none => none
    | some v => if v < 2 ^ 64 then some v else none

/-- Embeds Go `strconv.Atoi`: optional sign, decimal digits, 64-bit signed
range; `none` stands for a non-nil error. -/
def atoi (s : List Char) : Option Int :=
  match s with
  | [] => none
  | c :: rest =>
    let neg : Bool := c = '-'
    let digits := if c = '-' ∨ c = '+' then rest else s
    if digits = [] then none
    else
      match parseUintLoop 10 0 digits with
      | none => none
      | some v =>
        if neg then
          if v ≤ 2 ^ 63 then some (-(v : Int)) else none
        else
          if v < 2 ^ 63 then some (v : Int) else none

/-! ## Development-mode flag (main.go: IsDevelopment) -/

/-- Embeds `IsDevelopment`: the DEVELOPMENT variable, when non-empty, is fed
to Atoi and dev mode holds exactly when that parse succeeds with value 1.
The empty list models both an unset and an empty variable. -/
def isDevelopment (env : List Char) : Bool :=
  if env ≠ [] then
    match atoi env with
    | some v => v = 1
    | none => false
  else false

/-- Embeds the encoding choice of `setupLogger`: the encoding starts as
console and is switched to json exactly when not in development mode. -/
def loggerEncoding (env : List Char) : List Char :=
  if isDevelopment env then String.toList "console" else String.toList "json"

/-! ## Trace-header normalizer (main.go: fixTracingHeader) -/

/-- Embeds `strings.Index` followed by slicing `h[:i], h[i+1:]`: splits at
the first occurrence of `sep`, or `none` when `sep` does not occur. -/
def splitAtFirst (sep : Char) : List Char → Option (List Char × List Char)
  | [] => none
  | c :: rest =>
    if c = sep then some ([], rest)
    else
      match splitAtFirst sep rest with
      | none => none
      | some (pre, post) => some (c :: pre, post)

/-- Embeds the header rewrite of `fixTracingHeader`: split at the first
slash and then the first semicolon; when the span segment fails the base-10
parse but passes base-16, replace it by the decimal form of the value
truncated to 32 bits (`uint64(uint32(n))`); reassemble with
`fmt.Sprintf("%s/%s;%s", ...)`. A header missing either separator is left
untouched. -/
def fixTracingHeader (h : List Char) : List Char :=
  match splitAtFirst '/' h with
  | none => h
  | some (tracestr, rest) =>
    match splitAtFirst ';' rest with
    | none => h
    | some (spanstr, flags) =>
      let spanstr2 :=
        match parseUint 10 spanstr with
        | some _ => spanstr
        | none =>
          match parseUint 16 spanstr with
          | some n => Nat.toDigits 10 (n % 2 ^ 32)
          | none => spanstr
      tracestr ++ '/' :: spanstr2 ++ ';' :: flags

/-! ## Graceful-shutdown coordinator (main.go: main, shutdownLivenessServer)

The signal goroutine and the main goroutine are each embedded as their
straight-line sequence of atomic actions; the `allConsClosed` channel and
the effect of `srv.Shutdown` on `ListenAndServe` are gating conditions on
the interleaving. The set of complete interleavings is computed explicitly
and the temporal claims are checked over every one of them. -/

/-- Atomic actions of the shutdown choreography. Duration arguments record
the constants of the code (10 s delay, 20 s and 5 s shutdown bounds). -/
inductive SEv where
  | recvSignal
  | sleepDelay (secs : Nat)
  | primShutdownCall (timeoutSecs : Nat)
  | primShutdownRet (failed : Bool)
  | logPrimShutdownError
  | closeChan
  | serveRet
  | waitChan
  | livShutdownCall (timeoutSecs : Nat)
  | livShutdownRet (failed : Bool)
  | logLivShutdownError
  | exitProc
deriving DecidableEq, Repr

/-- The signal-handling goroutine of `main`: wait for the signal, sleep 10 s
unless in development mode, call the 20-second bounded `srv.Shutdown`, log
its error if it fails, then close `allConsClosed`. `pf` is whether the
primary shutdown call returns an error. -/
def sigProg (isDev : Bool) (pf : Bool) : List SEv :=
  [.recvSignal]
    ++ (if isDev then [] else [.sleepDelay 10])
    ++ [.primShutdownCall 20, .primShutdownRet pf]
    ++ (if pf then [.logPrimShutdownError] else [])
    ++ [.closeChan]

/-- The main goroutine from the moment shutdown begins: `ListenAndServe`
returns (enabled once `srv.Shutdown` has been called), `<-allConsClosed`
(enabled once the channel is closed), then the deferred
`shutdownLivenessServer` with its 5-second bound, logging its error if it
fails, and finally process exit. `lf` is whether the liveness shutdown call
returns an error. -/
def mainProg (lf : Bool) : List SEv :=
  [.serveRet, .waitChan, .livShutdownCall 5, .livShutdownRet lf]
    ++ (if lf then [.logLivShutdownError] else [])
    ++ [.exitProc]

/-- Whether a main-goroutine action is enabled given that the primary
shutdown has been called (`called`) and `allConsClosed` is closed
(`closed`). -/
def enabledMain (e : SEv) (called closed : Bool) : Bool :=
  match e with
  | .serveRet => called
  | .waitChan => closed
  | _ => true

/-- Whether executing an action makes `srv.Shutdown` called. -/
def marksCalled (e : SEv) : Bool :=
  match e with
  | .primShutdownCall _ => true
  | _ => false

/-- All complete interleavings of the two goroutines under the gating
conditions: each trace runs both programs to exhaustion. One unit of fuel
is spent per executed action, so fuel equal to the total number of actions
is exactly enough; recursion on the fuel keeps the function computable by
the kernel. -/
def interleavingsAux : Nat → List SEv → List SEv → Bool → Bool → List (List SEv)
  | _, [], [], _, _ => [[]]
  | 0, _, _, _, _ => []
  | fuel + 1, as, bs, called, closed =>
    let fromSig :=
      match as with
      | [] => []
      | a :: as2 =>
        (interleavingsAux fuel as2 bs (called || marksCalled a)
            (closed || (a == SEv.closeChan))).map
          (fun t => a :: t)
    let fromMain :=
      match bs with
      | [] => []
      | b :: bs2 =>
        if enabledMain b called closed then
          (interleavingsAux fuel as bs2 called closed).map (fun t => b :: t)
        else []
    fromSig ++ fromMain

/-- The complete execution traces of the shutdown choreography, for a given
development-mode flag and given outcomes of the two shutdown calls. -/
def shutdownTraces (isDev pf lf : Bool) : List (List SEv) :=
  interleavingsAux ((sigProg isDev pf).length + (mainProg lf).length)
    (sigProg isDev pf) (mainProg lf) false false

/-- `x` occurs in `t` strictly before `y` (both occurring). -/
def beforeIn (x y : SEv) (t : List SEv) : Bool :=
  t.contains x && t.contains y && decide (t.indexOf x < t.indexOf y)

/-! ## JSON endpoint handlers (cmd/api/handlers.go) -/

/-- Outcome of the outbound call performed by `getJSONResponse`, covering
each fallible step: the `DefaultHTTPClient.Get`, the `ioutil.ReadAll`, and
the `json.Unmarshal` of the body. -/
inductive CallResult where
  | getErr
  | readErr
  | decodeErr (raw : List Char)
  | ok
deriving DecidableEq, Repr

/-- Embeds `getJSONResponse`, abstracted to the keys it places in the
`called` map: the `url` query values (`none` when the key is absent), then
the guard `!ok || len(urlParams) != 1 || len(urlParams[0]) < 1`, then one
key per branch of the nested error handling. -/
def getJSONResponse (urlParams : Option (List (List Char))) (res : CallResult) :
    List (List Char) :=
  match urlParams with
  | none => [String.toList "error"]
  | some ps =>
    match ps with
    | [u] =>
      if u.length < 1 then [String.toList "error"]
      else
        String.toList "url" ::
          (match res with
          | .getErr => [String.toList "error"]
          | .readErr => [String.toList "error"]
          | .decodeErr _ => [String.toList "error", String.toList "response_raw"]
          | .ok => [String.toList "response"])
    | _ => [String.toList "error"]

/-- Embeds `healthService.healthCheck` as its response-writer interactions:
a single explicit `WriteHeader(http.StatusOK)`. -/
def healthCheck : List WOp :=
  [.writeHeader 200]

/-- Embeds `service.indexHandler` as its response-writer interactions:
`WriteHeader(http.StatusOK)` then the body write of the JSON encoding
(`encLen` bytes). -/
def indexHandler (encLen : Nat) : List WOp :=
  [.writeHeader 200, .write encLen]

/-- Top-level keys of the `/` response body. -/
def indexKeys : List (List Char) :=
  [String.toList "service", String.toList "request"]

/-- Embeds `service.callHandler` as its response-writer interactions:
`WriteHeader(http.StatusOK)` then the body write of the JSON encoding. -/
def callHandler (encLen : Nat) : List WOp :=
  [.writeHeader 200, .write encLen]

/-- Top-level keys of the `/call/` response body. -/
def callKeys : List (List Char) :=
  [String.toList "service", String.toList "request", String.toList "called"]

/-- Modelled from Go net/http ResponseWriter semantics (external library):
the status sent to the client is the argument of the first `WriteHeader`
call; a `Write` before any `WriteHeader`, or a handler returning without
writing anything, sends 200. -/
def responseStatus (ops : List WOp) : Nat :=
  match ops with
  | [] => 200
  | .writeHeader s :: _ => s
  | .write _ :: _ => 200

/-! ## Pod-label file parser (cmd/api/handlers.go: getServiceLabels) -/

/-- Embeds `strings.Split(s, "=")` for the single-rune separator: the
non-empty list of segments between occurrences of `sep`. -/
def goSplit (sep : Char) : List Char → List (List Char)
  | [] => [[]]
  | c :: rest =>
    let r := goSplit sep rest
    if c = sep then [] :: r
    else
      match r with
      | [] => [[c]]
      | g :: gs => (c :: g) :: gs

/-- Embeds the body of the scan loop of `getServiceLabels`:
`pair := strings.Split(line, "="); pair[1] = ReplaceAll(pair[1], quote, empty);
podLabels[pair[0]] = pair[1]`. `none` models the index-out-of-range panic of
the unguarded `pair[1]` access when the line holds no separator. (The
`goSplit` result is never empty, so only the one-element case panics.) -/
def processLine (line : List Char) : Option (List Char × List Char) :=
  match goSplit '=' line with
  | [_] => none
  | k :: v :: _ => some (k, v.filter (fun c => c ≠ Char.ofNat 34))
  | [] => none

/-- Embeds the scan loop of `getServiceLabels` over the lines of the label
file: `none` models the panic aborting the request as soon as one line
lacks a separator. -/
def getServiceLabels : List (List Char) → Option (List (List Char × List Char))
  | [] => some []
  | l :: rest =>
    match processLine l with
    | none => none
    | some kv =>
      match getServiceLabels rest with
      | none => none
      | some m => some (kv :: m)

/-- Follows the spec sentence for claim C9: the outcomes in which
`getJSONResponse` is documented to surface an error field (invalid `url`
parameter, outbound-call failure, body-read failure, JSON-decode failure). -/
def isErrorOutcome (urlParams : Option (List (List Char))) (res : CallResult) : Bool :=
  match urlParams with
  | none => true
  | some ps =>
    match ps with
    | [u] =>
      if u.length < 1 then true
      else
        match res with
        | .ok => false
        | _ => true
    | _ => true

/-! ## Helper lemmas -/

theorem adapt_eq_foldl {α : Type} (ms : List (α → α)) (h : α) :
    adapt h ms = ms.foldl (fun acc m => m acc) h := by
  induction ms generalizing h with
  | nil => rfl
  | cons m rest ih => simp [adapt, List.foldl, ih]

theorem adapt_append_single {α : Type} (ms : List (α → α)) (m : α → α) (h : α) :
    adapt h (ms ++ [m]) = m (adapt h ms) := by
  induction ms generalizing h with
  | nil => rfl
  | cons m0 rest ih => simp [adapt, ih]

theorem adapt_trace (ids : List Nat) (h0 : Handler) (t : List Nat) :
    adapt h0 (ids.map mkAdapter) t = h0 (t ++ ids.reverse) := by
  induction ids generalizing h0 t with
  | nil => simp [adapt]
  | cons i rest ih =>
    simp only [List.map_cons, adapt, List.reverse_cons]
    rw [ih (mkAdapter i h0) t]
    simp [mkAdapter, List.append_assoc]

theorem swWrite_length (w : StatusWriter) (n : Nat) :
    (swWrite w n).length = w.length + n := by
  simp only [swWrite]
  split <;> rfl

theorem swWrite_status (w : StatusWriter) (n : Nat) :
    (swWrite w n).status = if w.status = 0 then 200 else w.status := by
  simp only [swWrite]
  split <;> rfl

theorem swRun_length (ops : List WOp) (w : StatusWriter) :
    (swRun w ops).length = w.length + sumReported ops := by
  induction ops generalizing w with
  | nil => simp [swRun, sumReported]
  | cons op rest ih =>
    cases op with
    | writeHeader s =>
      rw [show swRun w (.writeHeader s :: rest) = swRun (swWriteHeader w s) rest from rfl, ih]
      simp only [sumReported, swWriteHeader]
    | write n =>
      rw [show swRun w (.write n :: rest) = swRun (swWrite w n) rest from rfl, ih,
        swWrite_length]
      simp only [sumReported]
      omega

theorem swRun_status_no_writeHeader (ops : List WOp) (w : StatusWriter)
    (hno : hasWriteHeader ops = false) (hw : w.status ≠ 0) :
    (swRun w ops).status = w.status := by
  induction ops generalizing w with
  | nil => rfl
  | cons op rest ih =>
    cases op with
    | writeHeader s => simp [hasWriteHeader] at hno
    | write n =>
      simp only [hasWriteHeader] at hno
      rw [show swRun w (.write n :: rest) = swRun (swWrite w n) rest from rfl]
      have hs : (swWrite w n).status = w.status := by
        rw [swWrite_status, if_neg hw]
      rw [ih _ hno (by rw [hs]; exact hw), hs]

theorem lastWrittenStatus_none_no_writeHeader (ops : List WOp)
    (h : lastWrittenStatus ops = none) : hasWriteHeader ops = false := by
  induction ops with
  | nil => rfl
  | cons op rest ih =>
    cases op with
    | writeHeader b =>
      simp only [lastWrittenStatus] at h
      cases h2 : lastWrittenStatus rest <;> rw [h2] at h <;> simp at h
    | write n =>
      simp only [lastWrittenStatus] at h
      simp only [hasWriteHeader]
      exact ih h

theorem swRun_status_last (ops : List WOp) (w : StatusWriter) (s : Nat)
    (hlast : lastWrittenStatus ops = some s) (hs : s ≠ 0) :
    (swRun w ops).status = s := by
  induction ops generalizing w with
  | nil => simp [lastWrittenStatus] at hlast
  | cons op rest ih =>
    cases op with
    | writeHeader a =>
      simp only [lastWrittenStatus] at hlast
      cases hrest : lastWrittenStatus rest with
      | some s2 =>
        rw [hrest] at hlast
        exact ih _ (hrest.trans (by simpa using hlast))
      | none =>
        rw [hrest] at hlast
        have ha : a = s := by simpa using hlast
        rw [show swRun w (.writeHeader a :: rest) = swRun (swWriteHeader w a) rest from rfl]
        have hnowh := lastWrittenStatus_none_no_writeHeader rest hrest
        have hsa : (swWriteHeader w a).status = a := rfl
        rw [swRun_status_no_writeHeader rest _ hnowh (by rw [hsa, ha]; exact hs), hsa, ha]
    | write n =>
      simp only [lastWrittenStatus] at hlast
      rw [show swRun w (.write n :: rest) = swRun (swWrite w n) rest from rfl]
      exact ih _ hlast

theorem loggedStatus_write_default (ops : List WOp)
    (hno : hasWriteHeader ops = false) (hw : hasWrite ops = true) :
    loggedStatus ops = 200 := by
  cases ops with
  | nil => simp [hasWrite] at hw
  | cons op rest =>
    cases op with
    | writeHeader s => simp [hasWriteHeader] at hno
    | write n =>
      simp only [hasWriteHeader] at hno
      have h1 : loggedStatus (.write n :: rest) = (swRun (swWrite swInit n) rest).status := rfl
      rw [h1]
      have h2 : (swWrite swInit n).status = 200 := rfl
      rw [swRun_status_no_writeHeader rest _ hno (by rw [h2]; exact (by decide)), h2]

theorem splitAtFirst_not_mem (sep : Char) (s : List Char) (h : sep ∉ s) :
    splitAtFirst sep s = none := by
  induction s with
  | nil => rfl
  | cons c rest ih =>
    simp only [List.mem_cons, not_or] at h
    have hc : ¬(c = sep) := fun he : c = sep => h.1 he.symm
    simp only [splitAtFirst, if_neg hc, ih h.2]

theorem splitAtFirst_append (sep : Char) (pre post : List Char) (h : sep ∉ pre) :
    splitAtFirst sep (pre ++ sep :: post) = some (pre, post) := by
  induction pre with
  | nil => simp [splitAtFirst]
  | cons c rest ih =>
    simp only [List.mem_cons, not_or] at h
    have hc : ¬(c = sep) := fun he : c = sep => h.1 he.symm
    simp only [List.cons_append, splitAtFirst, if_neg hc]
    rw [List.append_eq, ih h.2]

theorem goSplit_ne_nil (sep : Char) (s : List Char) : goSplit sep s ≠ [] := by
  cases s with
  | nil => simp [goSplit]
  | cons c rest =>
    simp only [goSplit]
    split
    · simp
    · cases goSplit sep rest <;> simp

theorem goSplit_not_mem (sep : Char) (s : List Char) (h : sep ∉ s) :
    goSplit sep s = [s] := by
  induction s with
  | nil => rfl
  | cons c rest ih =>
    simp only [List.mem_cons, not_or] at h
    have hc : ¬(c = sep) := fun he : c = sep => h.1 he.symm
    simp only [goSplit, if_neg hc, ih h.2]

theorem goSplit_mem_length (sep : Char) (s : List Char) (h : sep ∈ s) :
    2 ≤ (goSplit sep s).length := by
  induction s with
  | nil => simp at h
  | cons c rest ih =>
    simp only [goSplit]
    by_cases hc : c = sep
    · rw [if_pos hc]
      have := goSplit_ne_nil sep rest
      cases hr : goSplit sep rest <;> simp_all
    · rw [if_neg hc]
      have hmem : sep ∈ rest := by
        rcases List.mem_cons.mp h with h1 | h1
        · exact absurd h1.symm hc
        · exact h1
      have h2 := ih hmem
      cases hr : goSplit sep rest with
      | nil => exact absurd hr (goSplit_ne_nil sep rest)
      | cons g gs =>
        rw [hr] at h2
        simpa using h2

theorem processLine_isSome (line : List Char) :
    (processLine line).isSome = line.contains '=' := by
  by_cases h : '=' ∈ line
  · have h2 := goSplit_mem_length '=' line h
    rw [show line.contains '=' = true from by simpa [List.contains] using h]
    simp only [processLine]
    cases hr : goSplit '=' line with
    | nil => rw [hr] at h2; simp at h2
    | cons g gs =>
      cases gs with
      | nil => rw [hr] at h2; simp at h2
      | cons g2 gs2 => simp
  · rw [show line.contains '=' = false from by simpa [List.contains] using h]
    simp only [processLine, goSplit_not_mem '=' line h]
    rfl

theorem getServiceLabels_isSome (lines : List (List Char)) :
    (getServiceLabels lines).isSome = lines.all (fun l => l.contains '=') := by
  induction lines with
  | nil => rfl
  | cons l rest ih =>
    cases hp : processLine l with
    | none =>
      have hc := processLine_isSome l
      rw [hp] at hc
      have hL : getServiceLabels (l :: rest) = none := by
        simp only [getServiceLabels, hp]
      rw [hL, List.all_cons, ← hc]
      simp
    | some kv =>
      have hc := processLine_isSome l
      rw [hp] at hc
      have hL : getServiceLabels (l :: rest) =
          match getServiceLabels rest with
          | none => none
          | some m => some (kv :: m) := by
        simp only [getServiceLabels, hp]
      rw [hL, List.all_cons, ← hc]
      cases hr : getServiceLabels rest with
      | none =>
        rw [hr] at ih
        show false = ((some kv).isSome && rest.all fun l => l.contains '=')
        rw [← ih]
        rfl
      | some m =>
        rw [hr] at ih
        show true = ((some kv).isSome && rest.all fun l => l.contains '=')
        rw [← ih]
        rfl

/-! ## Claim theorems -/

/-- Claim C1: `adapt` is the left fold `h := m_i(h)` over the middleware
list in declaration order, the last adapter in the list is the outermost
wrapper at call time, and with instrumented wrappers every trace shows
wrapper `i` recording its event before wrapper `i-1` relative to calling
the next handler inward: the last-declared wrapper's event comes first. -/
theorem adapt_last_outermost :
    (∀ (α : Type) (h : α) (ms : List (α → α)),
      adapt h ms = ms.foldl (fun acc m => m acc) h)
    ∧ (∀ (α : Type) (h : α) (ms : List (α → α)) (m : α → α),
      adapt h (ms ++ [m]) = m (adapt h ms))
    ∧ (∀ (ids : List Nat) (h0 : Handler) (t : List Nat),
      adapt h0 (ids.map mkAdapter) t = h0 (t ++ ids.reverse)) :=
  ⟨fun _ h ms => adapt_eq_foldl ms h,
   fun _ h ms m => adapt_append_single ms m h,
   adapt_trace⟩

/-- Claim C3 (counterexample): the recorder does not keep the first
explicitly written status code. For the interaction sequence
`WriteHeader 201; WriteHeader 404` the access log reports 404, because
`statusWriter.WriteHeader` overwrites the recorded status unconditionally. -/
theorem loggedStatus_not_first :
    ¬(∀ (ops : List WOp) (s : Nat),
      firstWrittenStatus ops = some s → loggedStatus ops = s) := by
  intro hclaim
  have h := hclaim [.writeHeader 201, .writeHeader 404] 201 (by decide)
  exact absurd h (by decide)

/-- Claim C3 (amended): the status recorded and then logged by the
access-logging middleware is the LAST status code explicitly written during
the request (each `WriteHeader` call overwrites the recorded value); a
`Write` call defaults the status to 200 only while no status was set. -/
theorem loggedStatus_last_written (ops : List WOp) (s : Nat)
    (hlast : lastWrittenStatus ops = some s) (hs : s ≠ 0) :
    loggedStatus ops = s :=
  swRun_status_last ops swInit s hlast hs

/-- Witness for the amended claim C3 at a concrete interaction sequence. -/
theorem loggedStatus_last_written_witness :
    lastWrittenStatus [WOp.writeHeader 503, WOp.write 7] = some 503
    ∧ 503 ≠ 0
    ∧ loggedStatus [WOp.writeHeader 503, WOp.write 7] = 503 :=
  ⟨by decide, by decide,
   loggedStatus_last_written [WOp.writeHeader 503, WOp.write 7] 503 (by decide) (by decide)⟩

/-- Claim C4 (counterexample): a request in which the handler never writes
an explicit status does not always log 200: when the handler writes nothing
at all, the recorded status stays 0 and the log line reports 0. -/
theorem loggedStatus_default_not_200 :
    ¬(∀ ops : List WOp, hasWriteHeader ops = false → loggedStatus ops = 200) := by
  intro hclaim
  exact absurd (hclaim [] rfl) (by decide)

/-- Claim C4 (amended): with no explicit status write the log reports 200
provided the handler performed at least one `Write` call (with none at all
it reports 0), and for every request the logged byte count equals the sum
of the byte counts the underlying writer reported as successfully written. -/
theorem loggedStatus_default_200_and_length :
    (∀ ops : List WOp, hasWriteHeader ops = false → hasWrite ops = true →
      loggedStatus ops = 200)
    ∧ (∀ ops : List WOp, loggedLength ops = sumReported ops) :=
  ⟨loggedStatus_write_default,
   fun ops => by
    unfold loggedLength
    rw [swRun_length]
    exact Nat.zero_add _⟩

/-- Witness for the amended claim C4 at concrete interaction sequences. -/
theorem loggedStatus_default_200_and_length_witness :
    hasWriteHeader [WOp.write 5] = false
    ∧ hasWrite [WOp.write 5] = true
    ∧ loggedStatus [WOp.write 5] = 200
    ∧ loggedLength [WOp.write 3, WOp.write 4] = sumReported [WOp.write 3, WOp.write 4] :=
  ⟨by decide, by decide,
   loggedStatus_default_200_and_length.1 [WOp.write 5] (by decide) (by decide),
   loggedStatus_default_200_and_length.2 [WOp.write 3, WOp.write 4]⟩

/-- Claim C10: the label-file scan is total exactly when every line holds
at least one separator; a line without one makes the unguarded second-array
access panic (modelled as `none`), as on the concrete file
`app=web` / `badline`. -/
theorem getServiceLabels_panics_without_separator :
    (∀ lines : List (List Char),
      (getServiceLabels lines).isSome = lines.all (fun l => l.contains '='))
    ∧ getServiceLabels [String.toList "app=web", String.toList "badline"] = none :=
  ⟨getServiceLabels_isSome, by decide⟩

/-- Claim C5: the trace-header normalizer forwards the header value
unmodified whenever the span segment parses as a base-10 unsigned 64-bit
integer, whenever both the base-10 and base-16 parses fail, or whenever the
header misses the slash or the semicolon separator. -/
theorem fixTracingHeader_passthrough :
    (∀ h : List Char, '/' ∉ h → fixTracingHeader h = h)
    ∧ (∀ (t rest : List Char), '/' ∉ t → ';' ∉ rest →
        fixTracingHeader (t ++ '/' :: rest) = t ++ '/' :: rest)
    ∧ (∀ (t s f : List Char), '/' ∉ t → ';' ∉ s → (parseUint 10 s).isSome = true →
        fixTracingHeader (t ++ '/' :: s ++ ';' :: f) = t ++ '/' :: s ++ ';' :: f)
    ∧ (∀ (t s f : List Char), '/' ∉ t → ';' ∉ s →
        parseUint 10 s = none → parseUint 16 s = none →
        fixTracingHeader (t ++ '/' :: s ++ ';' :: f) = t ++ '/' :: s ++ ';' :: f) := by
  refine ⟨?_, ?_, ?_, ?_⟩
  · intro h hmem
    simp only [fixTracingHeader, splitAtFirst_not_mem '/' h hmem]
  · intro t rest ht hr
    simp only [fixTracingHeader, splitAtFirst_append '/' t rest ht,
      splitAtFirst_not_mem ';' rest hr]
  · intro t s f ht hs h10
    rcases Option.isSome_iff_exists.mp (by rw [h10] : (parseUint 10 s).isSome = true)
      with ⟨v, hv⟩
    simp [fixTracingHeader, splitAtFirst_append '/' t (s ++ ';' :: f) ht,
      splitAtFirst_append ';' s f hs, hv]
  · intro t s f ht hs h10 h16
    simp [fixTracingHeader, splitAtFirst_append '/' t (s ++ ';' :: f) ht,
      splitAtFirst_append ';' s f hs, h10, h16]

/-- Witness for claim C5: the documented header
`105445aa7843bc8bf206b12000100000/1;o=1`, whose span segment `1` parses as
decimal, passes through unchanged. -/
theorem fixTracingHeader_passthrough_witness :
    '/' ∉ String.toList "105445aa7843bc8bf206b12000100000"
    ∧ ';' ∉ String.toList "1"
    ∧ (parseUint 10 (String.toList "1")).isSome = true
    ∧ fixTracingHeader (String.toList "105445aa7843bc8bf206b12000100000"
          ++ '/' :: String.toList "1" ++ ';' :: String.toList "o=1")
      = String.toList "105445aa7843bc8bf206b12000100000"
          ++ '/' :: String.toList "1" ++ ';' :: String.toList "o=1" :=
  ⟨by decide, by decide, by decide,
   fixTracingHeader_passthrough.2.2.1 (String.toList "105445aa7843bc8bf206b12000100000")
     (String.toList "1") (String.toList "o=1") (by decide) (by decide) (by decide)⟩

/-- Claim C6: when the span segment fails the base-10 parse but parses as
base-16 with value `n`, the forwarded header carries the decimal digits of
`n` truncated to 32 bits in the span position, with the trace-id and flags
segments unchanged. -/
theorem fixTracingHeader_hex_rewrite (t s f : List Char) (n : Nat)
    (ht : '/' ∉ t) (hs : ';' ∉ s)
    (h10 : parseUint 10 s = none) (h16 : parseUint 16 s = some n) :
    fixTracingHeader (t ++ '/' :: s ++ ';' :: f)
      = t ++ '/' :: Nat.toDigits 10 (n % 2 ^ 32) ++ ';' :: f := by
  simp [fixTracingHeader, splitAtFirst_append '/' t (s ++ ';' :: f) ht,
    splitAtFirst_append ';' s f hs, h10, h16]

/-- Witness for claim C6: header `abc/ff;o=1` becomes `abc/255;o=1`. -/
theorem fixTracingHeader_hex_rewrite_witness :
    '/' ∉ String.toList "abc"
    ∧ ';' ∉ String.toList "ff"
    ∧ parseUint 10 (String.toList "ff") = none
    ∧ parseUint 16 (String.toList "ff") = some 255
    ∧ fixTracingHeader (String.toList "abc" ++ '/' :: String.toList "ff"
          ++ ';' :: String.toList "o=1")
      = String.toList "abc" ++ '/' :: Nat.toDigits 10 (255 % 2 ^ 32)
          ++ ';' :: String.toList "o=1" :=
  ⟨by decide, by decide, by decide, by decide,
   fixTracingHeader_hex_rewrite (String.toList "abc") (String.toList "ff")
     (String.toList "o=1") 255 (by decide) (by decide) (by decide) (by decide)⟩

/-- Claim C7 (counterexample): a DEVELOPMENT value denoting a nonzero
integer does not always enable development mode: `IsDevelopment` compares
the parsed value against 1, so the value `2` leaves dev mode disabled. -/
theorem isDevelopment_not_any_nonzero :
    ¬(∀ env : List Char,
      (∃ v : Int, atoi env = some v ∧ v ≠ 0) → isDevelopment env = true) := by
  intro hclaim
  have h := hclaim (String.toList "2") ⟨2, by decide, by decide⟩
  exact absurd h (by decide)

/-- Claim C7 (amended): development mode is enabled exactly when the
DEVELOPMENT value parses under Atoi as the integer 1; it is disabled when
the variable is unset, empty, zero, non-numeric, or any other integer.
When it is enabled the logger uses console encoding and the signal
goroutine skips the 10-second delay. -/
theorem isDevelopment_iff_one :
    (∀ env : List Char, isDevelopment env = true ↔ atoi env = some 1)
    ∧ (∀ env : List Char,
        loggerEncoding env = String.toList "console" ↔ isDevelopment env = true)
    ∧ (∀ (env : List Char) (pf : Bool),
        SEv.sleepDelay 10 ∈ sigProg (isDevelopment env) pf
          ↔ isDevelopment env = false) := by
  refine ⟨?_, ?_, ?_⟩
  · intro env
    unfold isDevelopment
    cases env with
    | nil => simp [atoi]
    | cons c rest =>
      rw [if_pos (by simp : (c :: rest : List Char) ≠ [])]
      cases ha : atoi (c :: rest) with
      | none => simp [ha]
      | some v => simp [ha]
  · intro env
    cases hd : isDevelopment env with
    | false =>
      simp only [loggerEncoding, hd]
      decide
    | true =>
      simp only [loggerEncoding, hd]
      decide
  · intro env pf
    cases hd : isDevelopment env with
    | false =>
      simp only [hd, sigProg]
      cases pf <;> decide
    | true =>
      simp only [hd, sigProg]
      cases pf <;> decide

/-- Claim C2: after the termination signal, in non-development mode every
complete interleaving of the two goroutines is strictly sequential across
stages: the 10-second delay precedes the 20-second bounded primary shutdown
call, that call returns before the 5-second bounded liveness shutdown
begins, and process exit is the last event; such interleavings exist. -/
theorem shutdown_stages_sequential :
    ∀ pf lf : Bool,
      (shutdownTraces false pf lf).isEmpty = false
      ∧ (shutdownTraces false pf lf).all (fun t =>
          beforeIn (.sleepDelay 10) (.primShutdownCall 20) t
          && beforeIn (.primShutdownCall 20) (.primShutdownRet pf) t
          && beforeIn (.primShutdownRet pf) (.livShutdownCall 5) t
          && beforeIn (.livShutdownCall 5) (.livShutdownRet lf) t
          && beforeIn (.livShutdownRet lf) .exitProc t
          && (t.getLast? == some SEv.exitProc)) = true := by
  intro pf lf
  cases pf <;> cases lf <;> decide

/-- Claim C8: for every combination of development mode and shutdown-call
outcomes, every complete interleaving ends in process exit, performs each
shutdown call exactly once (no retry), reaches both shutdown returns, and
contains the corresponding error-log event exactly when the call failed. -/
theorem shutdown_errors_not_propagated :
    ∀ isDev pf lf : Bool,
      (shutdownTraces isDev pf lf).isEmpty = false
      ∧ (shutdownTraces isDev pf lf).all (fun t =>
          (t.getLast? == some SEv.exitProc)
          && t.contains (.primShutdownRet pf)
          && t.contains (.livShutdownRet lf)
          && (t.count (.primShutdownCall 20) == 1)
          && (t.count (.livShutdownCall 5) == 1)
          && (t.contains .logPrimShutdownError == pf)
          && (t.contains .logLivShutdownError == lf)) = true := by
  intro d pf lf
  cases d <;> cases pf <;> cases lf <;> decide

/-- Claim C9: the documented endpoint handlers write status 200 regardless
of malformed-input or outbound-call errors; those errors appear exactly as
an `error` field of the JSON body (with `response_raw` added when the body
fails JSON decoding), never as a non-200 status. -/
theorem handlers_always_200 :
    ∀ (encLen : Nat) (up : Option (List (List Char))) (res : CallResult)
      (u raw : List Char),
      responseStatus (indexHandler encLen) = 200
      ∧ responseStatus (callHandler encLen) = 200
      ∧ responseStatus healthCheck = 200
      ∧ loggedStatus (indexHandler encLen) = 200
      ∧ loggedStatus (callHandler encLen) = 200
      ∧ (getJSONResponse up res).contains (String.toList "error")
          = isErrorOutcome up res
      ∧ (getJSONResponse (some [u]) (CallResult.decodeErr raw)).contains
          (String.toList "response_raw") = !decide (u.length < 1) := by
  intro encLen up res u raw
  refine ⟨rfl, rfl, rfl, rfl, rfl, ?_, ?_⟩
  · cases up with
    | none => rfl
    | some ps =>
      cases ps with
      | nil => rfl
      | cons u1 ps2 =>
        cases ps2 with
        | cons u2 ps3 => rfl
        | nil =>
          by_cases hu : u1.length < 1
          · simp only [getJSONResponse, isErrorOutcome, if_pos hu]
            decide
          · cases res <;> simp only [getJSONResponse, isErrorOutcome, if_neg hu] <;> decide
  · by_cases hu : u.length < 1
    · simp only [getJSONResponse, if_pos hu, decide_eq_true hu]
      decide
    · simp only [getJSONResponse, if_neg hu, decide_eq_false hu]
      decide

end GoWebServer
